import Mathlib

/-!
Shallow embedding of `app.py`, a generational genetic algorithm for a
one-dimensional facility-layout problem. Machine reals produced by Python's
true division appear only as halves of integer station sizes, so costs are
modelled exactly in `ℚ`. Randomness (tournament draws, crossover decision and
point, mutation decisions and indices) is externalized into explicit choice
parameters; the guarantees Python's `random.sample` and `random.randint` give
about those draws become hypotheses on the choices.
-/

/-- Translation of `distancia(i, j, orden, tamanos)`: center-to-center distance
between the stations at ordering positions `i` and `j`. `tamanos` is the
station-size table (Python list indexing becomes function application through
`List.getD`, with positions read from `orden`). -/
def distancia (i j : ℕ) (orden : List ℕ) (tamanos : ℕ → ℚ) : ℚ :=
  let Lxi := tamanos (orden.getD i 0)
  let Lxj := tamanos (orden.getD j 0)
  let suma_intermedia :=
    ((List.range' (i + 1) (j - (i + 1))).map (fun k => tamanos (orden.getD k 0))).sum
  Lxi / 2 + suma_intermedia + Lxj / 2

/-- Translation of `evaluar_solucion(orden, preferencias, tamanos)`: the nested
`for i in range(n-1): for j in range(i+1, n)` accumulation of
`distancia(i, j) * preferencias[i][j]` into `esfuerzo`, as left folds over the
same index ranges. -/
def evaluar_solucion (orden : List ℕ) (preferencias : ℕ → ℕ → ℚ) (tamanos : ℕ → ℚ) : ℚ :=
  let n := orden.length
  (List.range (n - 1)).foldl
    (fun esfuerzo i =>
      (List.range' (i + 1) (n - (i + 1))).foldl
        (fun esf j => esf + distancia i j orden tamanos * preferencias i j) esfuerzo)
    0

/-- Translation of `inicializar_poblacion(num_puestos)`: `int(num_puestos * 0.5)`
truncates the exact product toward zero, which on naturals is `num_puestos / 2`;
each member is `list(range(num_puestos))`. -/
def inicializar_poblacion (num_puestos : ℕ) : List (List ℕ) :=
  List.replicate (num_puestos / 2) (List.range num_puestos)

/-- Python's `min(torneo, key=...)`: first element of the list realizing the
minimal key (later elements replace the current best only on a strictly smaller
key). Returns `none` on the empty list, where Python raises `ValueError`. -/
def min_with_key (f : ℕ → ℚ) : List ℕ → Option ℕ
  | [] => none
  | x :: xs => some (xs.foldl (fun best y => if f y < f best then y else best) x)

/-- Translation of `seleccion_torneo(poblacion, fitness, tamano_torneo)`. The
`random.sample` draw is passed in as `torneo`; the winner is the drawn index of
minimal fitness, and `poblacion[ganador][:]` returns (a copy of) that member. -/
def seleccion_torneo (poblacion : List (List ℕ)) (fitness : List ℚ) (torneo : List ℕ) :
    Option (List ℕ) :=
  (min_with_key (fun x => fitness.getD x 0) torneo).map (fun ganador => poblacion.getD ganador [])

/-- Translation of `cruce(padre1, padre2)` with the drawn `punto_cruce` passed
in: each child is a prefix of one parent followed by the other parent's genes
not already present in that prefix. -/
def cruce (padre1 padre2 : List ℕ) (punto_cruce : ℕ) : List ℕ × List ℕ :=
  (padre1.take punto_cruce ++
     padre2.filter (fun gen => decide (gen ∉ padre1.take punto_cruce)),
   padre2.take punto_cruce ++
     padre1.filter (fun gen => decide (gen ∉ padre2.take punto_cruce)))

/-- Translation of `mutacion(individuo)` with the two drawn indices passed in:
the simultaneous assignment `individuo[i1], individuo[i2] =
individuo[i2], individuo[i1]` reads both old values first, then stores them. -/
def mutacion (individuo : List ℕ) (indice_1 indice_2 : ℕ) : List ℕ :=
  (individuo.set indice_1 (individuo.getD indice_2 0)).set indice_2 (individuo.getD indice_1 0)

/-- Characterization of a value `random.sample(range(n), k)` can return:
`k` distinct indices below `n`. -/
def sample_ok (n k : ℕ) (draw : List ℕ) : Prop :=
  draw.length = k ∧ draw.Nodup ∧ ∀ i ∈ draw, i < n

instance (n k : ℕ) (draw : List ℕ) : Decidable (sample_ok n k draw) := by
  unfold sample_ok; infer_instance

/-- The random draws consumed by one iteration of the reproduction `while` loop
in `main`: two tournament samples, the `random.random() < PROBABILIDAD_CRUCE`
outcome, the crossover point, and the two mutation outcomes with their index
pairs. -/
structure IterChoice where
  draw1 : List ℕ
  draw2 : List ℕ
  do_cruce : Bool
  punto : ℕ
  do_mut1 : Bool
  swap1 : ℕ × ℕ
  do_mut2 : Bool
  swap2 : ℕ × ℕ

/-- The constraints Python's random primitives guarantee for the draws of one
reproduction iteration, for population size `m` and chromosome length `n`:
`random.sample(range(m), 3)` for each tournament, `random.randint(1, n - 1)`
for the crossover point, and `random.sample(range(n), 2)` for each mutation. -/
def IterChoice.Valid (c : IterChoice) (m n : ℕ) : Prop :=
  sample_ok m 3 c.draw1 ∧ sample_ok m 3 c.draw2 ∧
  1 ≤ c.punto ∧ c.punto ≤ n - 1 ∧
  c.swap1.1 < n ∧ c.swap1.2 < n ∧ c.swap1.1 ≠ c.swap1.2 ∧
  c.swap2.1 < n ∧ c.swap2.2 < n ∧ c.swap2.1 ≠ c.swap2.2

instance (c : IterChoice) (m n : ℕ) : Decidable (c.Valid m n) := by
  unfold IterChoice.Valid; infer_instance

/-- One iteration of the reproduction loop body in `main` (lines 161-181):
select two parents by tournament, cross them over when the crossover coin says
so (otherwise the children are copies of the parents), then mutate each child
when its mutation coin says so. -/
def reproduce_iter (poblacion : List (List ℕ)) (fitness : List ℚ) (c : IterChoice) :
    List ℕ × List ℕ :=
  let padre1 := (seleccion_torneo poblacion fitness c.draw1).getD []
  let padre2 := (seleccion_torneo poblacion fitness c.draw2).getD []
  let hijos := if c.do_cruce then cruce padre1 padre2 c.punto else (padre1, padre2)
  let hijo1 := if c.do_mut1 then mutacion hijos.1 c.swap1.1 c.swap1.2 else hijos.1
  let hijo2 := if c.do_mut2 then mutacion hijos.2 c.swap2.1 c.swap2.2 else hijos.2
  (hijo1, hijo2)

/-- The `while len(nueva_poblacion) < len(poblacion)` reproduction loop,
appending both children each iteration. Each pass grows `nueva` by two, so
`poblacion.length` iterations of fuel always suffice to reach the guard. -/
def repro_while (poblacion : List (List ℕ)) (fitness : List ℚ) (trace : ℕ → IterChoice) :
    ℕ → List (List ℕ) → ℕ → List (List ℕ)
  | 0, nueva, _ => nueva
  | fuel + 1, nueva, k =>
    if nueva.length < poblacion.length then
      repro_while poblacion fitness trace fuel
        (nueva ++ [(reproduce_iter poblacion fitness (trace k)).1,
          (reproduce_iter poblacion fitness (trace k)).2]) (k + 1)
    else nueva

/-- One generation of the evolution loop in `main`: compute the fitness vector
of the current population, then run the reproduction loop to build the
replacement population. -/
def generacion (poblacion : List (List ℕ)) (preferencias : ℕ → ℕ → ℚ) (tamanos : ℕ → ℚ)
    (trace : ℕ → IterChoice) : List (List ℕ) :=
  let fitness := poblacion.map (fun individuo => evaluar_solucion individuo preferencias tamanos)
  repro_while poblacion fitness trace poblacion.length [] 0

/-- The `for generacion in range(num_generaciones)` loop of `main`, threading
the pair of Python variables `(poblacion, fitness)` that survive the loop:
each pass recomputes `fitness` for the incoming population and then replaces
the population. `g` is the generation index selecting this generation's random
draws from `traces`. -/
def run_loop (preferencias : ℕ → ℕ → ℚ) (tamanos : ℕ → ℚ) (traces : ℕ → ℕ → IterChoice) :
    ℕ → ℕ → List (List ℕ) → List ℚ → List (List ℕ) × List ℚ
  | _, 0, poblacion, fitness => (poblacion, fitness)
  | g, n + 1, poblacion, _ =>
    run_loop preferencias tamanos traces (g + 1) n
      (generacion poblacion preferencias tamanos (traces g))
      (poblacion.map (fun individuo => evaluar_solucion individuo preferencias tamanos))

/-- Population after `n` further generations starting from generation index `g`
(pure population iterate, without the `fitness` variable). -/
def pob_iter (preferencias : ℕ → ℕ → ℚ) (tamanos : ℕ → ℚ) (traces : ℕ → ℕ → IterChoice) :
    ℕ → ℕ → List (List ℕ) → List (List ℕ)
  | _, 0, poblacion => poblacion
  | g, n + 1, poblacion =>
    pob_iter preferencias tamanos traces (g + 1) n
      (generacion poblacion preferencias tamanos (traces g))

/-- Translation of `numpy.argmin` on a list: index of the first occurrence of
the minimum (0 on the empty list, where numpy raises). -/
def argmin_list : List ℚ → ℕ
  | [] => 0
  | [_] => 0
  | x :: y :: xs =>
    let j := argmin_list (y :: xs)
    if (y :: xs).getD j 0 < x then j + 1 else 0

/-- The tail of `main` (lines 152-187): initialize, run the generation loop,
then extract `poblacion[argmin(fitness)]` from the variables surviving the
loop and re-evaluate it. Returns the printed pair (best ordering, best cost). -/
def main_ga (num_puestos : ℕ) (preferencias : ℕ → ℕ → ℚ) (tamanos : ℕ → ℚ)
    (traces : ℕ → ℕ → IterChoice) (num_generaciones : ℕ) : List ℕ × ℚ :=
  let resultado :=
    run_loop preferencias tamanos traces 0 num_generaciones (inicializar_poblacion num_puestos) []
  let mejor_orden := resultado.1.getD (argmin_list resultado.2) []
  (mejor_orden, evaluar_solucion mejor_orden preferencias tamanos)

/-! ### Concrete instances used for explicit runs -/

/-- Station sizes for the concrete runs: station 5 has size 10, all others size 2
(as the size table `[2, 2, 2, 2, 2, 10]`). -/
def tamanosEjemplo : ℕ → ℚ := fun k => if k = 5 then 10 else 2

/-- Preference matrix for the concrete runs: weight 1 for the position pair
(0, 1) and 0 everywhere else. -/
def preferenciasEjemplo : ℕ → ℕ → ℚ := fun i j => if i = 0 ∧ j = 1 then 1 else 0

/-- Draws for a reproduction iteration on a population of 3 chromosomes of
length 6 that skips crossover and mutates only the first child, swapping
positions 0 and 5. -/
def eleccionMuta : IterChoice :=
  ⟨[0, 1, 2], [0, 1, 2], false, 1, true, (0, 5), false, (0, 1)⟩

/-- Draws for a reproduction iteration that skips crossover and both mutations,
so both children are verbatim copies of the selected parents. -/
def eleccionCopia : IterChoice :=
  ⟨[0, 1, 2], [0, 1, 2], false, 1, false, (0, 1), false, (0, 1)⟩

/-- Random draws of the concrete run: in every generation, the first
reproduction iteration mutates the first child, every further one copies. -/
def trazaEjemplo : ℕ → ℕ → IterChoice := fun _ k => if k = 0 then eleccionMuta else eleccionCopia

/-- One full generation on `num_puestos = 6` with the example data, exactly as
`main` runs it with `num_generaciones = 1`: the pair of loop variables
`(poblacion, fitness)` surviving the generation loop. -/
def corridaEjemplo : List (List ℕ) × List ℚ :=
  run_loop preferenciasEjemplo tamanosEjemplo trazaEjemplo 0 1 (inicializar_poblacion 6) []

/-! ### Bridge lemmas between the loop translations and closed-form sums -/

theorem foldl_add_map (l : List ℕ) (f : ℕ → ℚ) (init : ℚ) :
    l.foldl (fun a x => a + f x) init = init + (l.map f).sum := by
  induction l generalizing init with
  | nil => simp
  | cons x xs ih => simp [ih, add_assoc]

theorem sum_map_range' (f : ℕ → ℚ) :
    ∀ (n s : ℕ), ((List.range' s n).map f).sum = ∑ j ∈ Finset.Ico s (s + n), f j := by
  intro n
  induction n with
  | zero => simp
  | succ m ih =>
    intro s
    rw [List.range'_succ, List.map_cons, List.sum_cons, ih (s + 1),
      Finset.sum_eq_sum_Ico_succ_bot (by omega : s < s + (m + 1))]
    have h : s + 1 + m = s + (m + 1) := by omega
    rw [h]

theorem foldl_add_of_pointwise (l : List ℕ) (g : ℚ → ℕ → ℚ) (A : ℕ → ℚ)
    (hg : ∀ a x, g a x = a + A x) (init : ℚ) :
    l.foldl g init = init + (l.map A).sum := by
  induction l generalizing init with
  | nil => simp
  | cons x xs ih => rw [List.foldl_cons, ih, hg, List.map_cons, List.sum_cons, add_assoc]

/-- The accumulation loop of `evaluar_solucion` as a double sum over the
position pairs `i < j` it visits. -/
theorem evaluar_solucion_eq_sum (orden : List ℕ) (preferencias : ℕ → ℕ → ℚ) (tamanos : ℕ → ℚ) :
    evaluar_solucion orden preferencias tamanos =
      ∑ i ∈ Finset.range (orden.length - 1),
        ∑ j ∈ Finset.Ico (i + 1) orden.length,
          distancia i j orden tamanos * preferencias i j := by
  unfold evaluar_solucion
  rw [foldl_add_of_pointwise (List.range (orden.length - 1)) _
    (fun i => ((List.range' (i + 1) (orden.length - (i + 1))).map
      (fun j => distancia i j orden tamanos * preferencias i j)).sum)
    (fun a i => foldl_add_map _ _ a)]
  rw [zero_add, List.range_eq_range', sum_map_range', zero_add, ← Finset.range_eq_Ico]
  refine Finset.sum_congr rfl fun i hi => ?_
  rw [sum_map_range']
  have hi2 : i + 1 + (orden.length - (i + 1)) = orden.length := by
    have := Finset.mem_range.mp hi; omega
  rw [hi2]

/-! ### Swap (mutation) helper lemmas -/

theorem cons_set_perm (a : ℕ) :
    ∀ (xs : List ℕ) (m : ℕ), m < xs.length → (xs.getD m 0 :: xs.set m a).Perm (a :: xs)
  | x :: ys, 0, _ => by simpa using List.Perm.swap a x ys
  | x :: ys, m + 1, h => by
    have hm : m < ys.length := by simpa using h
    have ih := cons_set_perm a ys m hm
    have h1 : ((x :: ys).getD (m + 1) 0 :: (x :: ys).set (m + 1) a)
        = ys.getD m 0 :: x :: ys.set m a := by simp
    rw [h1]
    exact ((List.Perm.swap x (ys.getD m 0) (ys.set m a)).trans (ih.cons x)).trans
      (List.Perm.swap a x ys)

theorem set_set_perm :
    ∀ (l : List ℕ) (i j : ℕ), i < l.length → j < l.length →
      ((l.set i (l.getD j 0)).set j (l.getD i 0)).Perm l
  | [], i, j, hi, _ => by simp at hi
  | x :: xs, 0, 0, _, _ => by simp
  | x :: xs, 0, m + 1, _, hj => by
    have hm : m < xs.length := by simpa using hj
    have h1 : (((x :: xs).set 0 ((x :: xs).getD (m + 1) 0)).set (m + 1) ((x :: xs).getD 0 0))
        = xs.getD m 0 :: xs.set m x := by simp
    rw [h1]
    exact cons_set_perm x xs m hm
  | x :: xs, n + 1, 0, hi, _ => by
    have hn : n < xs.length := by simpa using hi
    have h1 : (((x :: xs).set (n + 1) ((x :: xs).getD 0 0)).set 0 ((x :: xs).getD (n + 1) 0))
        = xs.getD n 0 :: xs.set n x := by simp
    rw [h1]
    exact cons_set_perm x xs n hn
  | x :: xs, n + 1, m + 1, hi, hj => by
    have hn : n < xs.length := by simpa using hi
    have hm : m < xs.length := by simpa using hj
    have h1 : (((x :: xs).set (n + 1) ((x :: xs).getD (m + 1) 0)).set (m + 1)
        ((x :: xs).getD (n + 1) 0)) = x :: ((xs.set n (xs.getD m 0)).set m (xs.getD n 0)) := by
      simp
    rw [h1]
    exact (set_set_perm xs n m hn hm).cons x

theorem mutacion_perm (individuo : List ℕ) (i j : ℕ)
    (hi : i < individuo.length) (hj : j < individuo.length) :
    (mutacion individuo i j).Perm individuo :=
  set_set_perm individuo i j hi hj

/-! ### Tournament selection helper lemmas -/

theorem foldl_min_spec (f : ℕ → ℚ) :
    ∀ (xs : List ℕ) (x : ℕ),
      (xs.foldl (fun best y => if f y < f best then y else best) x) ∈ x :: xs ∧
      f (xs.foldl (fun best y => if f y < f best then y else best) x) ≤ f x ∧
      ∀ y ∈ xs, f (xs.foldl (fun best y => if f y < f best then y else best) x) ≤ f y := by
  intro xs
  induction xs with
  | nil => intro x; simp
  | cons y ys ih =>
    intro x
    obtain ⟨h1, h2, h3⟩ := ih (if f y < f x then y else x)
    have hstep_le_x : f (if f y < f x then y else x) ≤ f x := by
      split_ifs with hc
      · exact le_of_lt hc
      · exact le_refl _
    have hstep_le_y : f (if f y < f x then y else x) ≤ f y := by
      split_ifs with hc
      · exact le_refl _
      · exact not_lt.mp hc
    rw [List.foldl_cons]
    refine ⟨?_, le_trans h2 hstep_le_x, ?_⟩
    · rcases List.mem_cons.mp h1 with h | h
      · rw [h]
        split_ifs
        · exact List.mem_cons_of_mem x (List.mem_cons_self y ys)
        · exact List.mem_cons_self x (y :: ys)
      · exact List.mem_cons_of_mem x (List.mem_cons_of_mem y h)
    · intro z hz
      rcases List.mem_cons.mp hz with h | h
      · rw [h]; exact le_trans h2 hstep_le_y
      · exact h3 z h

theorem min_with_key_spec (f : ℕ → ℚ) (x : ℕ) (xs : List ℕ) :
    ∃ g, min_with_key f (x :: xs) = some g ∧ g ∈ x :: xs ∧ ∀ y ∈ x :: xs, f g ≤ f y := by
  obtain ⟨h1, h2, h3⟩ := foldl_min_spec f xs x
  refine ⟨_, rfl, h1, ?_⟩
  intro y hy
  rcases List.mem_cons.mp hy with h | h
  · rw [h]; exact h2
  · exact h3 y h

theorem getD_mem_of_lt (l : List (List ℕ)) (g : ℕ) (h : g < l.length) : l.getD g [] ∈ l := by
  rw [List.getD_eq_getElem _ _ h]
  exact List.getElem_mem h

theorem seleccion_torneo_spec (poblacion : List (List ℕ)) (fitness : List ℚ)
    (d : ℕ) (ds : List ℕ) :
    ∃ g, seleccion_torneo poblacion fitness (d :: ds) = some (poblacion.getD g []) ∧
      g ∈ d :: ds ∧ ∀ i ∈ d :: ds, fitness.getD g 0 ≤ fitness.getD i 0 := by
  obtain ⟨g, hg, hmem, hmin⟩ := min_with_key_spec (fun x => fitness.getD x 0) d ds
  exact ⟨g, by rw [seleccion_torneo, hg]; rfl, hmem, hmin⟩

theorem sample_ok_exists_iff (n k : ℕ) : (∃ draw, sample_ok n k draw) ↔ k ≤ n := by
  constructor
  · rintro ⟨draw, hlen, hnd, hmem⟩
    have hcard : draw.toFinset.card = draw.length := List.toFinset_card_of_nodup hnd
    have hsub : draw.toFinset ⊆ Finset.range n := by
      intro a ha
      exact Finset.mem_range.mpr (hmem a (List.mem_toFinset.mp ha))
    have := Finset.card_le_card hsub
    rw [hcard, hlen, Finset.card_range] at this
    exact this
  · intro h
    exact ⟨List.range k, List.length_range k, List.nodup_range k,
      fun i hi => lt_of_lt_of_le (List.mem_range.mp hi) h⟩

/-! ### Crossover helper lemmas -/

theorem prefix_filter_perm (t d l2 : List ℕ) (hnd : (t ++ d).Nodup) (h2 : l2.Perm (t ++ d)) :
    (t ++ l2.filter (fun gen => decide (gen ∉ t))).Perm (t ++ d) := by
  have hfilt : (l2.filter (fun gen => decide (gen ∉ t))).Perm
      ((t ++ d).filter (fun gen => decide (gen ∉ t))) := h2.filter _
  have hdisj : t.Disjoint d := (List.nodup_append.mp hnd).2.2
  have htake : t.filter (fun gen => decide (gen ∉ t)) = [] := by
    rw [List.filter_eq_nil_iff]
    intro a ha
    simpa using ha
  have hdrop : d.filter (fun gen => decide (gen ∉ t)) = d := by
    rw [List.filter_eq_self]
    intro a ha
    simpa using fun hmem => hdisj hmem ha
  rw [List.filter_append, htake, hdrop, List.nil_append] at hfilt
  exact hfilt.append_left t

theorem cruce_child_perm (l1 l2 : List ℕ) (p : ℕ) (h1 : l1.Nodup) (h2 : l2.Perm l1) :
    (l1.take p ++ l2.filter (fun gen => decide (gen ∉ l1.take p))).Perm l1 := by
  have h := prefix_filter_perm (l1.take p) (l1.drop p) l2
    (by rw [List.take_append_drop]; exact h1)
    (by rw [List.take_append_drop]; exact h2)
  rw [List.take_append_drop] at h
  exact h

/-! ### Mutation frame lemmas -/

theorem mutacion_length (individuo : List ℕ) (i j : ℕ) :
    (mutacion individuo i j).length = individuo.length := by
  simp [mutacion]

theorem mutacion_getD_fst (individuo : List ℕ) (i j : ℕ)
    (hi : i < individuo.length) (hj : j < individuo.length) (hij : i ≠ j) :
    (mutacion individuo i j).getD i 0 = individuo.getD j 0 := by
  unfold mutacion
  rw [List.getD_eq_getElem?_getD, List.getElem?_set_ne (by omega : j ≠ i),
    List.getElem?_set_eq_of_lt _ hi]
  rfl

theorem mutacion_getD_snd (individuo : List ℕ) (i j : ℕ)
    (hi : i < individuo.length) (hj : j < individuo.length) :
    (mutacion individuo i j).getD j 0 = individuo.getD i 0 := by
  unfold mutacion
  rw [List.getD_eq_getElem?_getD, List.getElem?_set_eq_of_lt _ (by simpa using hj)]
  rfl

theorem mutacion_getD_other (individuo : List ℕ) (i j k : ℕ) (hki : k ≠ i) (hkj : k ≠ j) :
    (mutacion individuo i j).getD k 0 = individuo.getD k 0 := by
  unfold mutacion
  rw [List.getD_eq_getElem?_getD, List.getElem?_set_ne (by omega : j ≠ k),
    List.getElem?_set_ne (by omega : i ≠ k), List.getD_eq_getElem?_getD]

/-! ### Reproduction loop lemmas -/

theorem repro_while_length (poblacion : List (List ℕ)) (fitness : List ℚ)
    (trace : ℕ → IterChoice) :
    ∀ (fuel : ℕ) (nueva : List (List ℕ)) (k : ℕ),
      poblacion.length ≤ nueva.length + 2 * fuel →
      (repro_while poblacion fitness trace fuel nueva k).length =
        if poblacion.length ≤ nueva.length then nueva.length
        else poblacion.length + (poblacion.length - nueva.length) % 2 := by
  intro fuel
  induction fuel with
  | zero =>
    intro nueva k h
    simp only [repro_while]
    rw [if_pos (by omega)]
  | succ fuel ih =>
    intro nueva k h
    simp only [repro_while]
    by_cases hlt : nueva.length < poblacion.length
    · rw [if_pos hlt, ih _ (k + 1) (by simp; omega)]
      simp only [List.length_append, List.length_cons, List.length_nil]
      split_ifs <;> omega
    · rw [if_neg hlt, if_pos (by omega)]

theorem repro_while_mem (poblacion : List (List ℕ)) (fitness : List ℚ)
    (trace : ℕ → IterChoice) (P : List ℕ → Prop)
    (hstep : ∀ k, P (reproduce_iter poblacion fitness (trace k)).1 ∧
      P (reproduce_iter poblacion fitness (trace k)).2) :
    ∀ (fuel : ℕ) (nueva : List (List ℕ)) (k : ℕ), (∀ x ∈ nueva, P x) →
      ∀ x ∈ repro_while poblacion fitness trace fuel nueva k, P x := by
  intro fuel
  induction fuel with
  | zero =>
    intro nueva k hn
    simpa only [repro_while] using hn
  | succ fuel ih =>
    intro nueva k hn
    simp only [repro_while]
    by_cases hlt : nueva.length < poblacion.length
    · rw [if_pos hlt]
      refine ih _ (k + 1) ?_
      intro x hx
      rcases List.mem_append.mp hx with h | h
      · exact hn x h
      · simp only [List.mem_cons, List.not_mem_nil, or_false] at h
        rcases h with h | h
        · rw [h]; exact (hstep k).1
        · rw [h]; exact (hstep k).2
    · rw [if_neg hlt]
      exact hn

theorem reproduce_iter_perm (poblacion : List (List ℕ)) (fitness : List ℚ) (n : ℕ)
    (c : IterChoice) (hpob : ∀ x ∈ poblacion, x.Perm (List.range n))
    (hc : c.Valid poblacion.length n) :
    (reproduce_iter poblacion fitness c).1.Perm (List.range n) ∧
    (reproduce_iter poblacion fitness c).2.Perm (List.range n) := by
  obtain ⟨hs1, hs2, hp1, hp2, ha1, ha2, ha3, hb1, hb2, hb3⟩ := hc
  have hpadre : ∀ draw : List ℕ, sample_ok poblacion.length 3 draw →
      ((seleccion_torneo poblacion fitness draw).getD []).Perm (List.range n) := by
    intro draw hdraw
    obtain ⟨hlen, hnd, hmem⟩ := hdraw
    match draw, hlen with
    | d :: ds, _ =>
      obtain ⟨g, hg, hgmem, _⟩ := seleccion_torneo_spec poblacion fitness d ds
      rw [hg, Option.getD_some]
      exact hpob _ (getD_mem_of_lt poblacion g (hmem g hgmem))
  have hpadre1 := hpadre c.draw1 hs1
  have hpadre2 := hpadre c.draw2 hs2
  have hnodup1 : ((seleccion_torneo poblacion fitness c.draw1).getD []).Nodup :=
    hpadre1.nodup_iff.mpr (List.nodup_range n)
  have hnodup2 : ((seleccion_torneo poblacion fitness c.draw2).getD []).Nodup :=
    hpadre2.nodup_iff.mpr (List.nodup_range n)
  have hijos_perm :
      (if c.do_cruce then
          cruce ((seleccion_torneo poblacion fitness c.draw1).getD [])
            ((seleccion_torneo poblacion fitness c.draw2).getD []) c.punto
        else (((seleccion_torneo poblacion fitness c.draw1).getD []),
          ((seleccion_torneo poblacion fitness c.draw2).getD []))).1.Perm (List.range n) ∧
      (if c.do_cruce then
          cruce ((seleccion_torneo poblacion fitness c.draw1).getD [])
            ((seleccion_torneo poblacion fitness c.draw2).getD []) c.punto
        else (((seleccion_torneo poblacion fitness c.draw1).getD []),
          ((seleccion_torneo poblacion fitness c.draw2).getD []))).2.Perm (List.range n) := by
    cases hcr : c.do_cruce
    · simpa using ⟨hpadre1, hpadre2⟩
    · simp only [if_pos rfl, cruce]
      constructor
      · exact (cruce_child_perm _ _ c.punto hnodup1
          (hpadre2.trans hpadre1.symm)).trans hpadre1
      · exact (cruce_child_perm _ _ c.punto hnodup2
          (hpadre1.trans hpadre2.symm)).trans hpadre2
  have hmut : ∀ (h : List ℕ) (b : Bool) (s : ℕ × ℕ), h.Perm (List.range n) →
      s.1 < n → s.2 < n → (if b then mutacion h s.1 s.2 else h).Perm (List.range n) := by
    intro h b s hperm hq1 hq2
    cases b
    · simpa using hperm
    · have hl : h.length = n := by rw [hperm.length_eq, List.length_range]
      simp only [if_pos rfl]
      exact (mutacion_perm h s.1 s.2 (by rw [hl]; exact hq1) (by rw [hl]; exact hq2)).trans hperm
  exact ⟨hmut _ c.do_mut1 c.swap1 hijos_perm.1 ha1 ha2,
    hmut _ c.do_mut2 c.swap2 hijos_perm.2 hb1 hb2⟩

/-! ### Generation loop lemmas -/

theorem run_loop_eq_pob_iter (preferencias : ℕ → ℕ → ℚ) (tamanos : ℕ → ℚ)
    (traces : ℕ → ℕ → IterChoice) :
    ∀ (n g : ℕ) (poblacion : List (List ℕ)) (fitness0 : List ℚ), 1 ≤ n →
      run_loop preferencias tamanos traces g n poblacion fitness0 =
        (pob_iter preferencias tamanos traces g n poblacion,
         (pob_iter preferencias tamanos traces g (n - 1) poblacion).map
           (fun individuo => evaluar_solucion individuo preferencias tamanos)) := by
  intro n
  induction n with
  | zero => intro g pob fit h; omega
  | succ m ih =>
    intro g pob fit _
    cases m with
    | zero => simp [run_loop, pob_iter]
    | succ m2 =>
      have step : run_loop preferencias tamanos traces g (m2 + 1 + 1) pob fit =
          run_loop preferencias tamanos traces (g + 1) (m2 + 1)
            (generacion pob preferencias tamanos (traces g))
            (pob.map (fun individuo => evaluar_solucion individuo preferencias tamanos)) := rfl
      rw [step, ih (g + 1) _ _ (by omega)]
      have hiter1 : pob_iter preferencias tamanos traces g (m2 + 1 + 1) pob =
          pob_iter preferencias tamanos traces (g + 1) (m2 + 1)
            (generacion pob preferencias tamanos (traces g)) := rfl
      have hiter2 : pob_iter preferencias tamanos traces g (m2 + 1 + 1 - 1) pob =
          pob_iter preferencias tamanos traces (g + 1) (m2 + 1 - 1)
            (generacion pob preferencias tamanos (traces g)) := rfl
      rw [hiter1, hiter2]

/-! ### Claim theorems -/

/-- Claim C2: for every ordering, sizes vector and preference matrix,
`evaluar_solucion` returns the sum over all position pairs `i < j`
(`i` from `0..N-2`, `j` from `i+1..N-1`) of `distancia i j` times
`preferencias i j`, where `i, j` index the preference matrix positionally;
consequently the cost only depends on the strictly-upper-triangular entries
of the preference matrix: two matrices agreeing there give equal cost. -/
theorem evaluar_solucion_pares_posicionales (orden : List ℕ)
    (preferencias preferencias2 : ℕ → ℕ → ℚ) (tamanos : ℕ → ℚ) :
    (evaluar_solucion orden preferencias tamanos =
      ∑ i ∈ Finset.range (orden.length - 1), ∑ j ∈ Finset.Ico (i + 1) orden.length,
        distancia i j orden tamanos * preferencias i j) ∧
    ((∀ i j, i < j → j < orden.length → preferencias i j = preferencias2 i j) →
      evaluar_solucion orden preferencias tamanos =
        evaluar_solucion orden preferencias2 tamanos) := by
  refine ⟨evaluar_solucion_eq_sum orden preferencias tamanos, ?_⟩
  intro hagree
  rw [evaluar_solucion_eq_sum, evaluar_solucion_eq_sum]
  refine Finset.sum_congr rfl fun i hi => Finset.sum_congr rfl fun j hj => ?_
  have hi2 := Finset.mem_range.mp hi
  have hj2 := Finset.mem_Ico.mp hj
  rw [hagree i j (by omega) (by omega)]

/-- Witness for C2 at a concrete input: two preference matrices that agree on
the strict upper triangle of positions below 2 give the same cost. -/
theorem evaluar_solucion_pares_posicionales_witness :
    evaluar_solucion [0, 1] (fun i j => if i = 0 ∧ j = 1 then 3 else 0) (fun _ => 2) =
      evaluar_solucion [0, 1] (fun i j => if i < j then 3 else 5) (fun _ => 2) := by
  refine (evaluar_solucion_pares_posicionales [0, 1] _ _ (fun _ => 2)).2 ?_
  intro i j h1 h2
  have h3 : i = 0 ∧ j = 1 := by simp at h2; omega
  rw [h3.1, h3.2]
  norm_num

/-- Claim C3: for every ordering, sizes vector and positions `i < j` in range,
`distancia` is half the size of the station at position `i`, plus the sizes of
the stations strictly between, plus half the size of the station at position
`j`; and concretely, for sizes `[2, 2, 2]` and ordering `[0, 1, 2]`,
the distance between positions 0 and 2 is `1 + 2 + 1 = 4`. -/
theorem distancia_formula (orden : List ℕ) (tamanos : ℕ → ℚ) (i j : ℕ)
    (hij : i < j) (hj : j < orden.length) :
    (distancia i j orden tamanos =
      tamanos (orden.get ⟨i, lt_trans hij hj⟩) / 2 +
        (∑ k ∈ Finset.Ico (i + 1) j, tamanos (orden.getD k 0)) +
        tamanos (orden.get ⟨j, hj⟩) / 2) ∧
    distancia 0 2 [0, 1, 2] (fun k => ([2, 2, 2] : List ℚ).getD k 0) = 4 := by
  constructor
  · unfold distancia
    rw [sum_map_range' (fun k => tamanos (orden.getD k 0)) (j - (i + 1)) (i + 1)]
    have h2 : i + 1 + (j - (i + 1)) = j := by omega
    rw [h2, List.getD_eq_getElem _ _ (lt_trans hij hj), List.getD_eq_getElem _ _ hj]
    simp [List.get_eq_getElem]
  · norm_num [distancia, List.range', List.getD]

/-- Witness for C3: the theorem applied at the concrete case from the spec. -/
theorem distancia_formula_witness :
    distancia 0 2 [0, 1, 2] (fun k => ([2, 2, 2] : List ℚ).getD k 0) = 4 :=
  (distancia_formula [0, 1, 2] (fun k => ([2, 2, 2] : List ℚ).getD k 0) 0 2
    (by decide) (by decide)).2

/-- Claim C6: for `N ≥ 2` the initializer returns exactly `⌊N × 0.5⌋`
candidates, each equal to the identity ordering `[0, 1, ..., N-1]` (it uses no
randomness, so all initial candidates are identical). -/
theorem inicializar_poblacion_identidad (num_puestos : ℕ) (h : 2 ≤ num_puestos) :
    (inicializar_poblacion num_puestos).length = num_puestos / 2 ∧
    ∀ individuo ∈ inicializar_poblacion num_puestos, individuo = List.range num_puestos := by
  refine ⟨by simp [inicializar_poblacion], ?_⟩
  intro ind hind
  exact List.eq_of_mem_replicate hind

/-- Witness for C6 at `N = 5`. -/
theorem inicializar_poblacion_identidad_witness :
    (inicializar_poblacion 5).length = 5 / 2 ∧
    ∀ individuo ∈ inicializar_poblacion 5, individuo = List.range 5 :=
  inicializar_poblacion_identidad 5 (by decide)

/-- Claim C10: with an all-zero preference matrix the evaluator returns cost 0
for any ordering (in particular the identity ordering) and any sizes. -/
theorem evaluar_solucion_preferencias_cero (orden : List ℕ) (tamanos : ℕ → ℚ) :
    evaluar_solucion orden (fun _ _ => 0) tamanos = 0 := by
  rw [evaluar_solucion_eq_sum]
  simp

/-- Claim C8: mutation at two distinct in-range positions exchanges exactly the
contents of those two positions, leaves every other position unchanged,
preserves the length, and produces a permutation of the input (so the multiset
of elements is preserved). -/
theorem mutacion_transposicion (individuo : List ℕ) (i j : ℕ)
    (hi : i < individuo.length) (hj : j < individuo.length) (hij : i ≠ j) :
    (mutacion individuo i j).length = individuo.length ∧
    (mutacion individuo i j).getD i 0 = individuo.getD j 0 ∧
    (mutacion individuo i j).getD j 0 = individuo.getD i 0 ∧
    (∀ k, k ≠ i → k ≠ j → (mutacion individuo i j).getD k 0 = individuo.getD k 0) ∧
    (mutacion individuo i j).Perm individuo :=
  ⟨mutacion_length individuo i j, mutacion_getD_fst individuo i j hi hj hij,
   mutacion_getD_snd individuo i j hi hj,
   fun k hki hkj => mutacion_getD_other individuo i j k hki hkj,
   mutacion_perm individuo i j hi hj⟩

/-- Witness for C8 at `[0, 1, 2, 3]`, swapping positions 1 and 3. -/
theorem mutacion_transposicion_witness :
    (mutacion [0, 1, 2, 3] 1 3).length = ([0, 1, 2, 3] : List ℕ).length ∧
    (mutacion [0, 1, 2, 3] 1 3).getD 1 0 = ([0, 1, 2, 3] : List ℕ).getD 3 0 ∧
    (mutacion [0, 1, 2, 3] 1 3).getD 3 0 = ([0, 1, 2, 3] : List ℕ).getD 1 0 ∧
    (∀ k, k ≠ 1 → k ≠ 3 → (mutacion [0, 1, 2, 3] 1 3).getD k 0 =
      ([0, 1, 2, 3] : List ℕ).getD k 0) ∧
    (mutacion [0, 1, 2, 3] 1 3).Perm [0, 1, 2, 3] :=
  mutacion_transposicion [0, 1, 2, 3] 1 3 (by decide) (by decide) (by decide)

/-- Claim C9: the reproduction loop appends two children per iteration until
the new population's size reaches the old size `M`, so one generation returns
exactly `M` candidates when `M` is even and `M + 1` when `M` is odd; in
particular the population never grows by more than one per generation. -/
theorem tamano_poblacion_deriva (poblacion : List (List ℕ)) (preferencias : ℕ → ℕ → ℚ)
    (tamanos : ℕ → ℚ) (trace : ℕ → IterChoice) :
    ((generacion poblacion preferencias tamanos trace).length =
      if poblacion.length % 2 = 0 then poblacion.length else poblacion.length + 1) ∧
    (generacion poblacion preferencias tamanos trace).length ≤ poblacion.length + 1 := by
  have h := repro_while_length poblacion
    (poblacion.map fun individuo => evaluar_solucion individuo preferencias tamanos)
    trace poblacion.length [] 0 (by simp; omega)
  simp only [List.length_nil] at h
  simp only [generacion]
  constructor
  · rw [h]; split_ifs <;> omega
  · rw [h]; split_ifs <;> omega

/-- Claim C4: for two parent permutations of equal length with a crossover
point `p` in `[1, L-1]`, child 1 is parent 1's prefix of length `p` followed by
the genes of parent 2 not in that prefix (in parent 2's order), both children
are permutations of the same element set as both parents, and concretely
`cruce [0,1,2,3] [3,2,1,0]` at point 2 yields first child `[0,1,3,2]`. -/
theorem cruce_preserva_permutacion (padre1 padre2 : List ℕ) (p : ℕ)
    (hnd : padre1.Nodup) (hperm : padre2.Perm padre1) (hL : 2 ≤ padre1.length)
    (hp1 : 1 ≤ p) (hp2 : p ≤ padre1.length - 1) :
    ((cruce padre1 padre2 p).1 =
      padre1.take p ++ padre2.filter (fun gen => decide (gen ∉ padre1.take p))) ∧
    (cruce padre1 padre2 p).1.Perm padre1 ∧ (cruce padre1 padre2 p).2.Perm padre1 ∧
    (cruce padre1 padre2 p).1.Perm padre2 ∧ (cruce padre1 padre2 p).2.Perm padre2 ∧
    (cruce [0, 1, 2, 3] [3, 2, 1, 0] 2).1 = [0, 1, 3, 2] := by
  have hnd2 : padre2.Nodup := hperm.nodup_iff.mpr hnd
  have h1 : (cruce padre1 padre2 p).1.Perm padre1 := cruce_child_perm padre1 padre2 p hnd hperm
  have h2 : (cruce padre1 padre2 p).2.Perm padre2 :=
    cruce_child_perm padre2 padre1 p hnd2 hperm.symm
  exact ⟨rfl, h1, h2.trans hperm, h1.trans hperm.symm, h2, by decide⟩

/-- Witness for C4 at the concrete parents `[0,1,2,3]` and `[3,2,1,0]` with
crossover point 2. -/
theorem cruce_preserva_permutacion_witness :
    ((cruce [0, 1, 2, 3] [3, 2, 1, 0] 2).1 =
      ([0, 1, 2, 3] : List ℕ).take 2 ++
        ([3, 2, 1, 0] : List ℕ).filter
          (fun gen => decide (gen ∉ ([0, 1, 2, 3] : List ℕ).take 2))) ∧
    (cruce [0, 1, 2, 3] [3, 2, 1, 0] 2).1.Perm [0, 1, 2, 3] ∧
    (cruce [0, 1, 2, 3] [3, 2, 1, 0] 2).2.Perm [0, 1, 2, 3] ∧
    (cruce [0, 1, 2, 3] [3, 2, 1, 0] 2).1.Perm [3, 2, 1, 0] ∧
    (cruce [0, 1, 2, 3] [3, 2, 1, 0] 2).2.Perm [3, 2, 1, 0] ∧
    (cruce [0, 1, 2, 3] [3, 2, 1, 0] 2).1 = [0, 1, 3, 2] :=
  cruce_preserva_permutacion [0, 1, 2, 3] [3, 2, 1, 0] 2
    (by decide) (by decide) (by decide) (by decide) (by decide)

/-- Claim C5: every candidate held in a population is a permutation of
`[0, N)`: the initializer produces only such candidates, and one generation
step (tournament copies, crossover children, mutants, and verbatim parent
copies) preserves the property for every member of the new population,
whenever the random draws satisfy the guarantees of Python's
`random.sample`/`random.randint`. -/
theorem poblacion_invariante_permutacion (num_puestos : ℕ) (poblacion : List (List ℕ))
    (preferencias : ℕ → ℕ → ℚ) (tamanos : ℕ → ℚ) (trace : ℕ → IterChoice)
    (hpob : ∀ x ∈ poblacion, x.Perm (List.range num_puestos))
    (htrace : ∀ k, (trace k).Valid poblacion.length num_puestos) :
    (∀ x ∈ inicializar_poblacion num_puestos, x.Perm (List.range num_puestos)) ∧
    (∀ x ∈ generacion poblacion preferencias tamanos trace, x.Perm (List.range num_puestos)) := by
  constructor
  · intro x hx
    unfold inicializar_poblacion at hx
    rw [List.eq_of_mem_replicate hx]
  · have hstep := fun k => reproduce_iter_perm poblacion
      (poblacion.map fun individuo => evaluar_solucion individuo preferencias tamanos)
      num_puestos (trace k) hpob (htrace k)
    simp only [generacion]
    exact repro_while_mem poblacion _ trace _ hstep poblacion.length [] 0 (by simp)

/-- Witness for C5: the invariant instantiated on `N = 6` with the population
produced by the initializer and a constant valid trace. -/
theorem poblacion_invariante_permutacion_witness :
    (∀ x ∈ inicializar_poblacion 6, x.Perm (List.range 6)) ∧
    (∀ x ∈ generacion (inicializar_poblacion 6) (fun _ _ => 0) (fun _ => 1)
      (fun _ => eleccionCopia), x.Perm (List.range 6)) :=
  poblacion_invariante_permutacion 6 (inicializar_poblacion 6) (fun _ _ => 0) (fun _ => 1)
    (fun _ => eleccionCopia) (by decide)
    (fun _ => show eleccionCopia.Valid (inicializar_poblacion 6).length 6 by decide)

/-- Claim C7 as stated is false at `k = 0`: with the one-member population
`[[0]]`, tournament size 0 does not exceed the population size and the empty
draw is a valid `random.sample` result, yet selection fails (Python's
`min([])` raises `ValueError`, modelled as `none`). -/
theorem seleccion_torneo_k_cero_cex :
    sample_ok ([[0]] : List (List ℕ)).length 0 [] ∧
    (0 : ℕ) ≤ ([[0]] : List (List ℕ)).length ∧
    seleccion_torneo [[0]] [0] [] = none :=
  ⟨by decide, by decide, rfl⟩

/-- Claim C7 amended: a `random.sample` draw of `k` distinct indices exists
exactly when `k` does not exceed the population size, and for any such draw
tournament selection succeeds exactly when additionally `k ≥ 1`, returning a
member of the population whose fitness is minimal among the drawn indices;
for `k = 0` it fails even though the draw itself succeeds. -/
theorem seleccion_torneo_exito (poblacion : List (List ℕ)) (fitness : List ℚ) (k : ℕ) :
    ((∃ draw, sample_ok poblacion.length k draw) ↔ k ≤ poblacion.length) ∧
    (∀ draw, sample_ok poblacion.length k draw → 1 ≤ k →
      ∃ g, seleccion_torneo poblacion fitness draw = some (poblacion.getD g []) ∧
        poblacion.getD g [] ∈ poblacion ∧ g ∈ draw ∧
        ∀ i ∈ draw, fitness.getD g 0 ≤ fitness.getD i 0) ∧
    (∀ draw, sample_ok poblacion.length k draw → k = 0 →
      seleccion_torneo poblacion fitness draw = none) := by
  refine ⟨sample_ok_exists_iff _ _, ?_, ?_⟩
  · intro draw hdraw hk
    obtain ⟨hlen, hnd, hmem⟩ := hdraw
    cases draw with
    | nil =>
      simp only [List.length_nil] at hlen
      omega
    | cons d ds =>
      obtain ⟨g, hg, hgmem, hgmin⟩ := seleccion_torneo_spec poblacion fitness d ds
      exact ⟨g, hg, getD_mem_of_lt poblacion g (hmem g hgmem), hgmem, hgmin⟩
  · intro draw hdraw hk0
    obtain ⟨hlen, _, _⟩ := hdraw
    rw [hk0] at hlen
    rw [List.length_eq_zero.mp hlen]
    rfl

/-- Witness for C7 (amended): on a two-member population, a draw of size 2
exists, selection on the draw `[0, 1]` succeeds, and selection picks the
index of minimal fitness. -/
theorem seleccion_torneo_exito_witness :
    ((∃ draw, sample_ok ([[9], [7]] : List (List ℕ)).length 2 draw) ↔
      2 ≤ ([[9], [7]] : List (List ℕ)).length) :=
  (seleccion_torneo_exito [[9], [7]] [5, 3] 2).1

/-! ### Concrete run for claim C1 -/

theorem eval_identidad_ejemplo :
    evaluar_solucion [0, 1, 2, 3, 4, 5] preferenciasEjemplo tamanosEjemplo = 2 := by
  have h5 : List.range (6 - 1) = [0, 1, 2, 3, 4] := by decide
  unfold evaluar_solucion
  simp only [List.length_cons, List.length_nil]
  norm_num [h5, preferenciasEjemplo, distancia, tamanosEjemplo, List.range']

theorem eval_mutada_ejemplo :
    evaluar_solucion [5, 1, 2, 3, 4, 0] preferenciasEjemplo tamanosEjemplo = 6 := by
  have h5 : List.range (6 - 1) = [0, 1, 2, 3, 4] := by decide
  unfold evaluar_solucion
  simp only [List.length_cons, List.length_nil]
  norm_num [h5, preferenciasEjemplo, distancia, tamanosEjemplo, List.range']

theorem fitness_inicial_ejemplo :
    ([[0, 1, 2, 3, 4, 5], [0, 1, 2, 3, 4, 5], [0, 1, 2, 3, 4, 5]] : List (List ℕ)).map
      (fun individuo => evaluar_solucion individuo preferenciasEjemplo tamanosEjemplo) =
      [2, 2, 2] := by
  simp [eval_identidad_ejemplo]

theorem corrida_ejemplo_eq :
    corridaEjemplo =
      ([[5, 1, 2, 3, 4, 0], [0, 1, 2, 3, 4, 5], [0, 1, 2, 3, 4, 5], [0, 1, 2, 3, 4, 5]],
       [2, 2, 2]) := by
  have hpob0 : inicializar_poblacion 6 =
      [[0, 1, 2, 3, 4, 5], [0, 1, 2, 3, 4, 5], [0, 1, 2, 3, 4, 5]] := by decide
  have hstep : corridaEjemplo =
      (generacion (inicializar_poblacion 6) preferenciasEjemplo tamanosEjemplo (trazaEjemplo 0),
       (inicializar_poblacion 6).map
         (fun individuo => evaluar_solucion individuo preferenciasEjemplo tamanosEjemplo)) := rfl
  have hgen : generacion [[0, 1, 2, 3, 4, 5], [0, 1, 2, 3, 4, 5], [0, 1, 2, 3, 4, 5]]
      preferenciasEjemplo tamanosEjemplo (trazaEjemplo 0) =
      [[5, 1, 2, 3, 4, 0], [0, 1, 2, 3, 4, 5], [0, 1, 2, 3, 4, 5], [0, 1, 2, 3, 4, 5]] := by
    simp only [generacion, fitness_inicial_ejemplo]
    decide
  rw [hstep, hpob0, fitness_inicial_ejemplo, hgen]

/-- Claim C1 as stated is false: in the concrete one-generation run
`corridaEjemplo` (N = 6, sizes `[2,2,2,2,2,10]`, preference weight 1 on the
position pair (0,1)), `main` extracts `poblacion[argmin(fitness)]` where
`fitness` is the vector computed for the population *entering* the last
generation, not for the final population it indexes: the extracted candidate
has cost 6 while the final population still contains a candidate of cost 2,
so the extracted candidate is not a minimum-fitness member of the final
population. -/
theorem mejor_extraccion_cex :
    evaluar_solucion (corridaEjemplo.1.getD (argmin_list corridaEjemplo.2) [])
        preferenciasEjemplo tamanosEjemplo = 6 ∧
    corridaEjemplo.1.getD 1 [] ∈ corridaEjemplo.1 ∧
    evaluar_solucion (corridaEjemplo.1.getD 1 []) preferenciasEjemplo tamanosEjemplo = 2 ∧
    ¬ (6 : ℚ) ≤ 2 := by
  refine ⟨?_, ?_, ?_, by norm_num⟩
  · rw [corrida_ejemplo_eq]
    have hargmin : argmin_list [2, 2, 2] = 0 := by decide
    rw [hargmin]
    exact eval_mutada_ejemplo
  · rw [corrida_ejemplo_eq]
    decide
  · rw [corrida_ejemplo_eq]
    exact eval_identidad_ejemplo

/-- Claim C1 amended: after the generation loop, the returned best ordering is
`poblacionFinal[argmin(fitnessPrevia)]`, where `fitnessPrevia` is the fitness
vector computed during the final generation for the population *entering* that
generation (the penultimate population), not the fitness vector of the final
population being indexed; the reported best cost is recomputed for the
extracted candidate. -/
theorem mejor_extraccion_fitness_previa (preferencias : ℕ → ℕ → ℚ) (tamanos : ℕ → ℚ)
    (traces : ℕ → ℕ → IterChoice) (num_puestos num_generaciones : ℕ)
    (h : 1 ≤ num_generaciones) :
    main_ga num_puestos preferencias tamanos traces num_generaciones =
      ((pob_iter preferencias tamanos traces 0 num_generaciones
          (inicializar_poblacion num_puestos)).getD
        (argmin_list ((pob_iter preferencias tamanos traces 0 (num_generaciones - 1)
          (inicializar_poblacion num_puestos)).map
            (fun individuo => evaluar_solucion individuo preferencias tamanos))) [],
       evaluar_solucion
        ((pob_iter preferencias tamanos traces 0 num_generaciones
            (inicializar_poblacion num_puestos)).getD
          (argmin_list ((pob_iter preferencias tamanos traces 0 (num_generaciones - 1)
            (inicializar_poblacion num_puestos)).map
              (fun individuo => evaluar_solucion individuo preferencias tamanos))) [])
        preferencias tamanos) := by
  simp only [main_ga]
  rw [run_loop_eq_pob_iter preferencias tamanos traces num_generaciones 0 _ [] h]

/-- Witness for the amended C1 on a one-generation run with `N = 6` and the
example data. -/
theorem mejor_extraccion_fitness_previa_witness :
    main_ga 6 preferenciasEjemplo tamanosEjemplo trazaEjemplo 1 =
      ((pob_iter preferenciasEjemplo tamanosEjemplo trazaEjemplo 0 1
          (inicializar_poblacion 6)).getD
        (argmin_list ((pob_iter preferenciasEjemplo tamanosEjemplo trazaEjemplo 0 (1 - 1)
          (inicializar_poblacion 6)).map
            (fun individuo => evaluar_solucion individuo preferenciasEjemplo tamanosEjemplo))) [],
       evaluar_solucion
        ((pob_iter preferenciasEjemplo tamanosEjemplo trazaEjemplo 0 1
            (inicializar_poblacion 6)).getD
          (argmin_list ((pob_iter preferenciasEjemplo tamanosEjemplo trazaEjemplo 0 (1 - 1)
            (inicializar_poblacion 6)).map
              (fun individuo => evaluar_solucion individuo preferenciasEjemplo tamanosEjemplo))) [])
        preferenciasEjemplo tamanosEjemplo) :=
  mejor_extraccion_fitness_previa preferenciasEjemplo tamanosEjemplo trazaEjemplo 6 1 (by decide)
